import Mathlib

/-!
# Scrappy — verification of the spec against the code

Shallow embedding of the scrappy repository (FastAPI scraping-and-outreach
backend with a Next.js frontend). The repository snapshot contains the
frontend sources and the project README; the backend core (orchestrator,
dispatcher, rate limiter, deduplicator, template engine) is consumed here
through models written from the spec, each marked `Modelled from the spec:`.
Frontend route handlers and page logic are embedded from the TypeScript
sources directly.
-/

namespace Scrappy

/-! ## Deduplicator (spec §4.3) -/

/-- Modelled from the spec: a raw scraped business record (the backend
`app/models.py` is absent from the snapshot); only the fields consulted by
the canonicalization rule of spec §4.3 are modelled. -/
structure RawRecord where
  name : String
  phone : Option String
  website : Option String
  address : Option String
deriving DecidableEq, Repr

/-- Modelled from the spec: lower-cased, whitespace-normalized business name
(spec §4.3): lower case, runs of whitespace collapsed to single spaces. -/
def normName (s : String) : String :=
  String.intercalate " " ((s.toLower.split Char.isWhitespace).filter (· ≠ ""))

/-- Modelled from the spec: normalized phone, digits only (spec §4.3). -/
def digitsOnly (s : String) : String :=
  String.mk (s.data.filter Char.isDigit)

/-- Drop a leading literal from a string when present. -/
def dropLead (p s : String) : String :=
  if s.startsWith p then s.drop p.length else s

/-- Modelled from the spec: normalized website domain (spec §4.3): lower
case, scheme and `www.` stripped, path discarded. -/
def domainOf (w : String) : String :=
  let s := dropLead "www." (dropLead "http://" (dropLead "https://" w.toLower))
  ((s.split (· = '/')).headD s)

/-- Modelled from the spec: canonicalization key (spec §4.3) — normalized
name combined with the first available discriminator, in priority order:
phone (digits only), else website domain, else normalized address. -/
def canonicalKey (r : RawRecord) : String :=
  normName r.name ++ "|" ++
    (match r.phone with
     | some p => digitsOnly p
     | none =>
       match r.website with
       | some w => domainOf w
       | none => (r.address.map normName).getD "")

/-- Modelled from the spec: the single pass of `dedupe` (spec §4.3) over the
candidate batch, carrying the set of keys seen so far (existing keys plus
keys already kept from this batch); a candidate is kept iff its key is
unseen, and keeping it adds its key to the seen set. -/
def dedupeGo (seen : List String) : List RawRecord → List RawRecord
  | [] => []
  | c :: cs =>
    if canonicalKey c ∈ seen then dedupeGo seen cs
    else c :: dedupeGo (canonicalKey c :: seen) cs

/-- Modelled from the spec: `dedupe(existingKeys, candidates)` (spec §4.3). -/
def dedupe (existingKeys : List String) (candidates : List RawRecord) :
    List RawRecord :=
  dedupeGo existingKeys candidates

theorem dedupeGo_sublist (seen : List String) (cs : List RawRecord) :
    List.Sublist (dedupeGo seen cs) cs := by
  induction cs generalizing seen with
  | nil => simp [dedupeGo]
  | cons c cs ih =>
    by_cases hk : canonicalKey c ∈ seen
    · simp only [dedupeGo, if_pos hk]
      exact (ih seen).cons c
    · simp only [dedupeGo, if_neg hk]
      exact (ih _).cons₂ c

theorem dedupeGo_key_not_seen (seen : List String) (cs : List RawRecord) :
    ∀ x ∈ dedupeGo seen cs, canonicalKey x ∉ seen := by
  induction cs generalizing seen with
  | nil => simp [dedupeGo]
  | cons c cs ih =>
    intro x hx
    by_cases hk : canonicalKey c ∈ seen
    · rw [dedupeGo, if_pos hk] at hx
      exact ih seen x hx
    · rw [dedupeGo, if_neg hk] at hx
      rcases List.mem_cons.mp hx with h | h
      · exact h ▸ hk
      · have hnot := ih (canonicalKey c :: seen) x h
        exact fun hmem => hnot (List.mem_cons_of_mem _ hmem)

theorem dedupeGo_keys_nodup (seen : List String) (cs : List RawRecord) :
    ((dedupeGo seen cs).map canonicalKey).Nodup := by
  induction cs generalizing seen with
  | nil => simp [dedupeGo]
  | cons c cs ih =>
    by_cases hk : canonicalKey c ∈ seen
    · rw [dedupeGo, if_pos hk]
      exact ih seen
    · rw [dedupeGo, if_neg hk]
      simp only [List.map_cons, List.nodup_cons]
      refine ⟨?_, ih _⟩
      intro hmem
      rcases List.mem_map.mp hmem with ⟨x, hx, hkey⟩
      exact dedupeGo_key_not_seen _ _ x hx (hkey ▸ List.mem_cons_self _ _)

theorem dedupeGo_complete (seen : List String) (cs : List RawRecord) :
    ∀ c ∈ cs, canonicalKey c ∉ seen →
      ∃ x ∈ dedupeGo seen cs, canonicalKey x = canonicalKey c := by
  induction cs generalizing seen with
  | nil => simp
  | cons c cs ih =>
    intro d hd hnot
    by_cases hk : canonicalKey c ∈ seen
    · rw [dedupeGo, if_pos hk]
      rcases List.mem_cons.mp hd with h | h
      · exact absurd (h ▸ hk) hnot
      · exact ih seen d h hnot
    · rw [dedupeGo, if_neg hk]
      rcases List.mem_cons.mp hd with h | h
      · exact ⟨c, List.mem_cons_self _ _, h ▸ rfl⟩
      · by_cases hdk : canonicalKey d = canonicalKey c
        · exact ⟨c, List.mem_cons_self _ _, hdk.symm⟩
        · have hnot2 : canonicalKey d ∉ canonicalKey c :: seen := by
            intro hmem
            rcases List.mem_cons.mp hmem with h2 | h2
            · exact hdk h2
            · exact hnot h2
          rcases ih _ d h hnot2 with ⟨x, hx, hkey⟩
          exact ⟨x, List.mem_cons_of_mem _ hx, hkey⟩

theorem dedupeGo_first_occ (seen : List String) (cs : List RawRecord) :
    ∀ x ∈ dedupeGo seen cs, ∃ pre post, cs = pre ++ x :: post ∧
      ∀ y ∈ pre, canonicalKey y ≠ canonicalKey x := by
  induction cs generalizing seen with
  | nil => simp [dedupeGo]
  | cons c cs ih =>
    intro x hx
    by_cases hk : canonicalKey c ∈ seen
    · rw [dedupeGo, if_pos hk] at hx
      rcases ih seen x hx with ⟨pre, post, heq, hpre⟩
      refine ⟨c :: pre, post, by simp [heq], ?_⟩
      intro y hy
      rcases List.mem_cons.mp hy with h | h
      · have hxkey := dedupeGo_key_not_seen seen cs x hx
        intro hkey
        exact hxkey (hkey ▸ h ▸ hk)
      · exact hpre y h
    · rw [dedupeGo, if_neg hk] at hx
      rcases List.mem_cons.mp hx with h | h
      · exact ⟨[], cs, by simp [h], by simp⟩
      · rcases ih _ x h with ⟨pre, post, heq, hpre⟩
        refine ⟨c :: pre, post, by simp [heq], ?_⟩
        intro y hy
        rcases List.mem_cons.mp hy with h2 | h2
        · have hxkey := dedupeGo_key_not_seen _ cs x h
          intro hkey
          exact hxkey (hkey ▸ h2 ▸ List.mem_cons_self _ _)
        · exact hpre y h2

/-- C2: `dedupe existingKeys candidates` returns, in input order (it is a
sublist of the input), exactly the candidates whose canonicalization key is
neither among the existing keys nor repeated earlier in the batch: every kept
record has a fresh key, kept keys are pairwise distinct, every candidate key
not already existing is represented, and each kept record is the first
occurrence of its key in the batch. Determinism holds by construction: the
pass is a pure function of `(existingKeys, candidates)`. -/
theorem dedupe_characterization (ex : List String) (cs : List RawRecord) :
    List.Sublist (dedupe ex cs) cs ∧
    (∀ x ∈ dedupe ex cs, canonicalKey x ∉ ex) ∧
    ((dedupe ex cs).map canonicalKey).Nodup ∧
    (∀ c ∈ cs, canonicalKey c ∉ ex →
      ∃ x ∈ dedupe ex cs, canonicalKey x = canonicalKey c) ∧
    (∀ x ∈ dedupe ex cs, ∃ pre post, cs = pre ++ x :: post ∧
      ∀ y ∈ pre, canonicalKey y ≠ canonicalKey x) :=
  ⟨dedupeGo_sublist ex cs, dedupeGo_key_not_seen ex cs,
   dedupeGo_keys_nodup ex cs, dedupeGo_complete ex cs,
   dedupeGo_first_occ ex cs⟩

/-- A concrete batch: two records sharing a phone-derived key and one with a
distinct key, against one pre-existing key. -/
def sampleBatch : List RawRecord :=
  [⟨"Cafe  Alpha", some "+1 (555) 010-7000", none, none⟩,
   ⟨"CAFE ALPHA", some "15550107000", none, none⟩,
   ⟨"Bistro Beta", none, some "https://www.beta.example/menu", none⟩]

theorem dedupe_characterization_witness :
    (∀ x ∈ dedupe ["stale|000"] sampleBatch, canonicalKey x ∉ ["stale|000"]) ∧
    ((dedupe ["stale|000"] sampleBatch).map canonicalKey).Nodup :=
  ⟨(dedupe_characterization ["stale|000"] sampleBatch).2.1,
   (dedupe_characterization ["stale|000"] sampleBatch).2.2.1⟩

/-! ## Message Template Engine (spec §4.4) -/

/-- Opening brace character of a placeholder. -/
def obrace : Char := Char.ofNat 123

/-- Closing brace character of a placeholder. -/
def cbrace : Char := Char.ofNat 125

/-- Split a character list at the first closing brace: `some (tok, rest)`
when a closing brace exists, with `tok` the characters before it and `rest`
those after; `none` when the placeholder is never closed. -/
def splitAtClose : List Char → Option (List Char × List Char)
  | [] => none
  | c :: cs =>
    if c = cbrace then some ([], cs)
    else
      match splitAtClose cs with
      | none => none
      | some (tok, rest) => some (c :: tok, rest)

/-- Modelled from the spec: the recognized placeholder tokens are the
canonical business fields of a record (spec §3, §4.4: `{name}` and any other
recognized field token). -/
def recognizedFields : List String :=
  ["name", "email", "phone", "website", "address", "source"]

/-- Look a field up in the record's field map; a missing field yields the
empty string (spec §4.4 mandates substituting the empty string). -/
def fieldValue (fields : List (String × String)) (k : String) : String :=
  ((fields.find? (fun p => p.1 == k)).map Prod.snd).getD ""

/-- Modelled from the spec: one rendering pass (spec §4.4), fuel-indexed for
structural recursion; the fuel never runs out when it is at least the length
of the input, since every step consumes at least one character. A recognized
placeholder is replaced by the field's value (empty when missing); an
unrecognized placeholder, or an unclosed one, is left verbatim. -/
def renderFuel (fields : List (String × String)) : Nat → List Char → List Char
  | _, [] => []
  | 0, l => l
  | fuel + 1, c :: cs =>
    if c = obrace then
      match splitAtClose cs with
      | none => c :: cs
      | some (tok, rest) =>
        (if recognizedFields.contains (String.mk tok) then
          (fieldValue fields (String.mk tok)).data
         else obrace :: (tok ++ [cbrace])) ++ renderFuel fields fuel rest
    else c :: renderFuel fields fuel cs

/-- Modelled from the spec: `render(template, fields)` (spec §4.4) — a pure,
total function: substitute the empty string for a recognized placeholder
whose field is missing, leave an unrecognized placeholder verbatim. -/
def render (template : String) (fields : List (String × String)) : String :=
  String.mk (renderFuel fields template.data.length template.data)

/-- C4: the template engine substitutes a present field, substitutes the
empty string for a recognized-but-missing field, and leaves an unrecognized
placeholder verbatim (for every field map), never failing — `render` is a
total pure function, so the three spec examples evaluate as stated. -/
theorem render_examples :
    render "Hi {name}!" [("name", "Acme")] = "Hi Acme!" ∧
    render "Hi {name}!" [] = "Hi !" ∧
    (∀ fields, render "Hi {unknown}" fields = "Hi {unknown}") :=
  ⟨rfl, rfl, fun _ => rfl⟩

/-! ## Job Orchestrator state machine (spec §4.1) and message lifecycle -/

/-- Modelled from the spec: OutreachMessage status (spec §3). -/
inductive MessageStatus
  | pending
  | sending
  | sent
  | failed
deriving DecidableEq, Repr

/-- A message status is terminal iff it is sent or failed (spec glossary). -/
def MessageStatus.terminal : MessageStatus → Bool
  | .sent => true
  | .failed => true
  | _ => false

/-- Modelled from the spec: the core Job states of the orchestrator's state
machine (spec §4.1). -/
inductive JobState
  | pending
  | scraping
  | scrapingCompleted
  | contacting
  | completed
  | failed
deriving DecidableEq, Repr, Fintype

/-- Modelled from the spec: the Dispatcher's per-message transitions (spec
§4.5): claim pending → sending; a send attempt ends in sent or failed; a
transient failure or the reconciliation sweep requeues sending → pending. -/
def msgStepOk : MessageStatus → MessageStatus → Bool
  | .pending, .sending => true
  | .sending, .sent => true
  | .sending, .failed => true
  | .sending, .pending => true
  | _, _ => false

/-- The per-job system state: the Job's core state together with the
statuses of the OutreachMessages belonging to it. -/
structure SysState where
  job : JobState
  msgs : List MessageStatus
deriving DecidableEq, Repr

/-- Modelled from the spec: the transition relation of the orchestrator
(spec §4.1) and dispatcher (spec §4.5). Messages exist only from the
enqueue at `scraping_completed → contacting` on, are mutated one at a time
by dispatch workers while the job is contacting, and `contacting →
completed` requires every message terminal. Cancellation and faults reach
`failed` from each non-terminal state. -/
inductive Step : SysState → SysState → Prop
  | accept : Step ⟨.pending, []⟩ ⟨.scraping, []⟩
  | cancelPending : Step ⟨.pending, []⟩ ⟨.failed, []⟩
  | scrapeOk : Step ⟨.scraping, []⟩ ⟨.scrapingCompleted, []⟩
  | scrapeFail : Step ⟨.scraping, []⟩ ⟨.failed, []⟩
  | enqueue (ms : List MessageStatus) (hne : ms ≠ [])
      (hall : ∀ m ∈ ms, m = .pending) :
      Step ⟨.scrapingCompleted, []⟩ ⟨.contacting, ms⟩
  | completeNoContact : Step ⟨.scrapingCompleted, []⟩ ⟨.completed, []⟩
  | cancelAfterScrape : Step ⟨.scrapingCompleted, []⟩ ⟨.failed, []⟩
  | dispatch (pre post : List MessageStatus) (m m2 : MessageStatus)
      (h : msgStepOk m m2 = true) :
      Step ⟨.contacting, pre ++ m :: post⟩ ⟨.contacting, pre ++ m2 :: post⟩
  | completeContacting (ms : List MessageStatus)
      (hall : ∀ m ∈ ms, m.terminal = true) :
      Step ⟨.contacting, ms⟩ ⟨.completed, ms⟩
  | contactFault (ms : List MessageStatus) :
      Step ⟨.contacting, ms⟩ ⟨.failed, ms⟩

/-- States reachable from a freshly created job (status pending, no
messages) through the transition relation. -/
inductive Reachable : SysState → Prop
  | init : Reachable ⟨.pending, []⟩
  | step {s t : SysState} : Reachable s → Step s t → Reachable t

/-- C1: in every reachable state whose job status is completed, every
OutreachMessage belonging to the job is terminal (sent or failed) — no
message of a completed job is pending or sending. -/
theorem completed_job_messages_terminal (s : SysState) (hr : Reachable s)
    (hc : s.job = .completed) : ∀ m ∈ s.msgs, m = .sent ∨ m = .failed := by
  induction hr with
  | init => simp at hc
  | step hr hstep ih =>
    cases hstep with
    | accept => simp at hc
    | cancelPending => simp at hc
    | scrapeOk => simp at hc
    | scrapeFail => simp at hc
    | enqueue ms hne hall => simp at hc
    | completeNoContact => simp
    | cancelAfterScrape => simp at hc
    | dispatch pre post m m2 h => simp at hc
    | completeContacting ms hall =>
      intro m hm
      have ht := hall m hm
      cases m with
      | pending => simp [MessageStatus.terminal] at ht
      | sending => simp [MessageStatus.terminal] at ht
      | sent => exact Or.inl rfl
      | failed => exact Or.inr rfl
    | contactFault ms => simp at hc

/-- A concrete completed run: two messages enqueued, one ends sent, one
ends failed after dispatch, then the job completes. -/
theorem completed_job_messages_terminal_witness :
    MessageStatus.failed = .sent ∨ MessageStatus.failed = .failed := by
  have h1 : Reachable ⟨.contacting, [.pending, .pending]⟩ :=
    Reachable.step
      (Reachable.step (Reachable.step Reachable.init Step.accept) Step.scrapeOk)
      (Step.enqueue [.pending, .pending] (by simp) (by simp))
  have h2 : Reachable ⟨.contacting, [.sending, .pending]⟩ :=
    Reachable.step h1 (Step.dispatch [] [.pending] .pending .sending rfl)
  have h3 : Reachable ⟨.contacting, [.sent, .pending]⟩ :=
    Reachable.step h2 (Step.dispatch [] [.pending] .sending .sent rfl)
  have h4 : Reachable ⟨.contacting, [.sent, .sending]⟩ :=
    Reachable.step h3 (Step.dispatch [.sent] [] .pending .sending rfl)
  have h5 : Reachable ⟨.contacting, [.sent, .failed]⟩ :=
    Reachable.step h4 (Step.dispatch [.sent] [] .sending .failed rfl)
  have h6 : Reachable ⟨.completed, [.sent, .failed]⟩ :=
    Reachable.step h5 (Step.completeContacting [.sent, .failed] (by decide))
  exact completed_job_messages_terminal ⟨.completed, [.sent, .failed]⟩ h6 rfl
    .failed (by simp)

/-! ## Dispatcher retry policy (spec §4.5, §7) -/

/-- Modelled from the spec: the outcome of one `ChannelSender.send` call
(spec §6): success, a retryable transient failure, or a permanent failure
that must not consume retry budget. -/
inductive SendResult
  | ok
  | transient (e : String)
  | permanent (e : String)
deriving DecidableEq, Repr

/-- Modelled from the spec: the retry policy knobs of spec §4.5 — maximum
attempts (default 3) and the exponential backoff's base delay and cap. -/
structure RetryPolicy where
  maxAttempts : Nat
  baseDelayMs : Nat
  capMs : Nat
deriving DecidableEq, Repr

/-- Modelled from the spec: exponential backoff, base delay × 2^attempt,
capped (spec §4.5; jitter is a bounded perturbation left out of the model). -/
def backoffDelay (p : RetryPolicy) (attempt : Nat) : Nat :=
  min p.capMs (p.baseDelayMs * 2 ^ attempt)

/-- The terminal record of dispatching one message: final status, total
attempts made, captured error, and the backoff delays inserted between
consecutive attempts, in order. -/
structure DispatchOutcome where
  status : MessageStatus
  attempts : Nat
  error : Option String
  delays : List Nat
deriving DecidableEq, Repr

/-- Modelled from the spec: the dispatch-with-retry loop for one message
(spec §4.5). `sender n` is the outcome of the n-th attempt (1-based). On
success the message is sent; a permanent failure is terminal at once; a
transient failure increments the attempt count and requeues with a backoff
delay while `attempt_count < maxAttempts`, else the message fails with the
captured error. Fuel counts the attempts still allowed and never runs out
while it equals `maxAttempts - attempt_count`. -/
def dispatchGo (p : RetryPolicy) (sender : Nat → SendResult) :
    Nat → Nat → List Nat → DispatchOutcome
  | 0, ac, acc => ⟨.failed, ac, none, acc.reverse⟩
  | fuel + 1, ac, acc =>
    match sender (ac + 1) with
    | .ok => ⟨.sent, ac + 1, none, acc.reverse⟩
    | .permanent e => ⟨.failed, ac + 1, some e, acc.reverse⟩
    | .transient e =>
      if ac + 1 < p.maxAttempts then
        dispatchGo p sender fuel (ac + 1) (backoffDelay p (ac + 1) :: acc)
      else ⟨.failed, ac + 1, some e, acc.reverse⟩

/-- Modelled from the spec: dispatch one freshly enqueued message
(attempt_count 0) under policy `p`. -/
def dispatchMessage (p : RetryPolicy) (sender : Nat → SendResult) :
    DispatchOutcome :=
  dispatchGo p sender p.maxAttempts 0 []

theorem dispatchGo_all_transient (p : RetryPolicy) (e : String)
    (sender : Nat → SendResult) (hs : ∀ n, sender n = .transient e) :
    ∀ fuel ac acc, fuel = p.maxAttempts - ac → ac < p.maxAttempts →
      dispatchGo p sender fuel ac acc =
        ⟨.failed, p.maxAttempts, some e,
          acc.reverse ++
            (List.range' (ac + 1) (p.maxAttempts - 1 - ac)).map
              (backoffDelay p)⟩ := by
  intro fuel
  induction fuel with
  | zero =>
    intro ac acc hfuel hlt
    omega
  | succ fuel ih =>
    intro ac acc hfuel hlt
    rw [dispatchGo, hs (ac + 1)]
    by_cases hcase : ac + 1 < p.maxAttempts
    · simp only [if_pos hcase]
      rw [ih (ac + 1) _ (by omega) hcase]
      have hn : p.maxAttempts - 1 - ac = (p.maxAttempts - 1 - (ac + 1)) + 1 :=
        by omega
      rw [hn, List.range'_succ, List.map_cons]
      simp
    · simp only [if_neg hcase]
      have hmax : ac + 1 = p.maxAttempts := by omega
      have hz : p.maxAttempts - 1 - ac = 0 := by omega
      rw [hmax, hz]
      simp

theorem backoffDelay_mono (p : RetryPolicy) (k : Nat) :
    backoffDelay p k ≤ backoffDelay p (k + 1) := by
  unfold backoffDelay
  exact min_le_min (le_refl _)
    (Nat.mul_le_mul_left _ (Nat.pow_le_pow_right (by omega) (by omega)))

theorem chain_le_map_range (f : Nat → Nat) (hf : ∀ k, f k ≤ f (k + 1)) :
    ∀ n s, List.Chain' (fun a b => a ≤ b) ((List.range' s n).map f) := by
  intro n
  induction n with
  | zero => intro s; simp
  | succ n ih =>
    intro s
    rw [List.range'_succ, List.map_cons]
    refine List.chain'_cons'.mpr ⟨?_, ih (s + 1)⟩
    intro b hb
    cases n with
    | zero => simp at hb
    | succ n =>
      rw [List.range'_succ, List.map_cons] at hb
      simp only [List.head?_cons, Option.mem_def, Option.some.injEq] at hb
      exact hb ▸ hf s

/-- C3: a message whose sender raises a transient error on every attempt is
attempted exactly `maxAttempts` times and ends failed with the captured
error; the backoff delays between consecutive attempts are the capped
exponential delays for attempts 1 … maxAttempts−1, there are exactly
`maxAttempts − 1` of them, and they are non-decreasing. -/
theorem retry_until_failed (p : RetryPolicy) (e : String)
    (sender : Nat → SendResult) (hs : ∀ n, sender n = .transient e)
    (hmax : 1 ≤ p.maxAttempts) :
    dispatchMessage p sender =
      ⟨.failed, p.maxAttempts, some e,
        (List.range' 1 (p.maxAttempts - 1)).map (backoffDelay p)⟩ ∧
    ((List.range' 1 (p.maxAttempts - 1)).map (backoffDelay p)).length =
      p.maxAttempts - 1 ∧
    List.Chain' (fun a b => a ≤ b)
      ((List.range' 1 (p.maxAttempts - 1)).map (backoffDelay p)) := by
  refine ⟨?_, by simp, chain_le_map_range _ (backoffDelay_mono p) _ _⟩
  have h := dispatchGo_all_transient p e sender hs p.maxAttempts 0 []
    (by omega) (by omega)
  simpa [dispatchMessage] using h

/-- A concrete run under the default policy (3 attempts, base 1000 ms,
cap 60000 ms) and an always-transient sender. -/
theorem retry_until_failed_witness :
    dispatchMessage ⟨3, 1000, 60000⟩ (fun _ => .transient "timeout") =
      ⟨.failed, 3, some "timeout",
        (List.range' 1 2).map (backoffDelay ⟨3, 1000, 60000⟩)⟩ ∧
    ((List.range' 1 2).map (backoffDelay ⟨3, 1000, 60000⟩)).length = 2 ∧
    List.Chain' (fun a b => a ≤ b)
      ((List.range' 1 2).map (backoffDelay ⟨3, 1000, 60000⟩)) :=
  retry_until_failed ⟨3, 1000, 60000⟩ "timeout" (fun _ => .transient "timeout")
    (fun _ => rfl) (by decide)

/-! ## Rate limiter (spec §4.2) -/

/-- Modelled from the spec: one channel's token bucket with zero refill
(the refill-free instant of spec §8's concurrency property). -/
structure Bucket where
  tokens : Nat
deriving DecidableEq, Repr

/-- Modelled from the spec: the atomic `tryAcquire` (spec §4.2): consume
one token and succeed when a token is available, else fail (a blocking
`acquire` suspends at this point). The spec mandates that the check and the
decrement are one atomic step — exactly one acquirer wins each token. -/
def tryAcquire (b : Bucket) : Bucket × Bool :=
  if b.tokens = 0 then (b, false) else (⟨b.tokens - 1⟩, true)

/-- Modelled from the spec: run one atomic acquisition per acquirer in the
given serialization order (any interleaving of the atomic acquisitions is
one such order); returns the final bucket, the acquirers that got a token,
and the acquirers left suspended, each in order. -/
def runAcquires (b : Bucket) : List Nat → Bucket × List Nat × List Nat
  | [] => (b, [], [])
  | i :: is =>
    if (tryAcquire b).2 then
      let r := runAcquires (tryAcquire b).1 is
      (r.1, i :: r.2.1, r.2.2)
    else
      let r := runAcquires b is
      (r.1, r.2.1, i :: r.2.2)

theorem runAcquires_eq (ids : List Nat) :
    ∀ C : Nat, runAcquires ⟨C⟩ ids =
      (⟨C - ids.length⟩, ids.take C, ids.drop C) := by
  induction ids with
  | nil => intro C; simp [runAcquires]
  | cons i is ih =>
    intro C
    cases C with
    | zero => simp [runAcquires, tryAcquire, ih 0]
    | succ C =>
      rw [runAcquires]
      simp only [tryAcquire]
      simp only [Nat.succ_ne_zero, if_neg, if_true, ite_false,
        Nat.add_sub_cancel]
      rw [ih C]
      simp only [List.take_succ_cons, List.drop_succ_cons, List.length_cons]
      refine Prod.ext ?_ rfl
      simp only
      congr 1
      omega

/-- C6: with bucket capacity C, zero refill, and N > C acquirers running
one atomic acquisition each, in any serialization order: exactly C
acquisitions succeed, the other N − C suspend, the bucket ends empty, and
tokens are conserved — successful acquisitions plus remaining tokens equal
C, so no two acquisitions ever consumed the same token. -/
theorem bucket_exact_capacity (C : Nat) (ids : List Nat)
    (h : C < ids.length) :
    ((runAcquires ⟨C⟩ ids).2.1).length = C ∧
    ((runAcquires ⟨C⟩ ids).2.2).length = ids.length - C ∧
    (runAcquires ⟨C⟩ ids).1.tokens = 0 ∧
    ((runAcquires ⟨C⟩ ids).2.1).length + (runAcquires ⟨C⟩ ids).1.tokens = C := by
  rw [runAcquires_eq ids C]
  refine ⟨?_, ?_, ?_, ?_⟩
  · simp only [List.length_take]
    omega
  · simp only [List.length_drop]
  · simp only
    omega
  · simp only [List.length_take]
    omega

/-- Five acquirers against a bucket of capacity three: the first three win,
two suspend, and the bucket is exactly drained. -/
theorem bucket_exact_capacity_witness :
    ((runAcquires ⟨3⟩ [10, 20, 30, 40, 50]).2.1).length = 3 ∧
    ((runAcquires ⟨3⟩ [10, 20, 30, 40, 50]).2.2).length = 5 - 3 ∧
    (runAcquires ⟨3⟩ [10, 20, 30, 40, 50]).1.tokens = 0 ∧
    ((runAcquires ⟨3⟩ [10, 20, 30, 40, 50]).2.1).length +
      (runAcquires ⟨3⟩ [10, 20, 30, 40, 50]).1.tokens = 3 :=
  bucket_exact_capacity 3 [10, 20, 30, 40, 50] (by decide)

/-! ## Frontend: job detail page
(src/frontend/app/dashboard/jobs/[id]/page.tsx) -/

/-- The `message_stats` object of the job status payload (`JobStatus`
interface, page.tsx lines 23–27). -/
structure MessageStats where
  sent : Nat
  failed : Nat
  pending : Nat
deriving DecidableEq, Repr

/-- The `JobStatus` interface of the job detail page (page.tsx lines
14–30): the shape of the status read model the frontend consumes. -/
structure JobStatus where
  job_id : Nat
  query : String
  source : String
  mode : String
  status : String
  created_at : String
  results_count : Nat
  messages_count : Nat
  message_stats : MessageStats
  has_results : Bool
  can_export : Bool
deriving DecidableEq, Repr

/-- The field names of the frontend `JobStatus` interface, in declaration
order (page.tsx lines 14–30). -/
def jobStatusFields : List String :=
  ["job_id", "query", "source", "mode", "status", "created_at",
   "results_count", "messages_count", "message_stats", "has_results",
   "can_export"]

/-- The fields of the status read model documented in spec §6. -/
def documentedStatusFields : List String :=
  ["job_id", "status", "created_at", "results_count", "messages_count",
   "message_stats", "has_results", "can_export"]

/-- Modelled from the spec: the backend computation of the status read
model (the FastAPI status endpoint is absent from the snapshot):
`has_results` is true iff at least one ScrapeResult is persisted for the
job, `can_export` iff the status is scraping_completed or completed
(spec §6). -/
def mkStatusReadModel (jobId : Nat)
    (query source mode status createdAt : String) (resultsCount : Nat)
    (stats : MessageStats) : JobStatus where
  job_id := jobId
  query := query
  source := source
  mode := mode
  status := status
  created_at := createdAt
  results_count := resultsCount
  messages_count := stats.sent + stats.failed + stats.pending
  message_stats := stats
  has_results := decide (1 ≤ resultsCount)
  can_export := decide (status = "scraping_completed" ∨ status = "completed")

/-- C5 fails as stated: the read model consumed by the page carries fields
beyond the documented set — `query` is a field of the `JobStatus`
interface but not among the documented fields (so are `source` and
`mode`). -/
theorem status_fields_not_exact :
    "query" ∈ jobStatusFields ∧ "query" ∉ documentedStatusFields := by
  decide

/-- C5 (amended): the status read model contains every documented field —
job id, status, created_at, results_count, messages_count, message_stats
with sent/failed/pending, has_results, can_export — plus exactly the extra
fields query, source and mode; and, with the backend modelled from the
spec, has_results is true iff at least one ScrapeResult is persisted and
can_export is true iff the status is scraping_completed or completed. -/
theorem status_read_model_fields (jobId : Nat)
    (query source mode status createdAt : String) (rc : Nat)
    (stats : MessageStats) :
    (∀ f ∈ documentedStatusFields, f ∈ jobStatusFields) ∧
    jobStatusFields.filter
      (fun f => !(documentedStatusFields.contains f)) =
        ["query", "source", "mode"] ∧
    ((mkStatusReadModel jobId query source mode status createdAt rc
        stats).has_results = true ↔ 1 ≤ rc) ∧
    ((mkStatusReadModel jobId query source mode status createdAt rc
        stats).can_export = true ↔
      (status = "scraping_completed" ∨ status = "completed")) := by
  refine ⟨by decide, by decide, ?_, ?_⟩
  · simp [mkStatusReadModel]
  · simp [mkStatusReadModel]

theorem status_read_model_fields_witness :
    ((mkStatusReadModel 1 "q" "google" "scrape_only" "completed" "now" 4
        ⟨3, 0, 0⟩).can_export = true ↔
      (("completed" : String) = "scraping_completed" ∨
        ("completed" : String) = "completed")) :=
  (status_read_model_fields 1 "q" "google" "scrape_only" "completed" "now" 4
    ⟨3, 0, 0⟩).2.2.2

/-- Does the character list `hay` begin with `needle`? -/
def leadsWith : List Char → List Char → Bool
  | [], _ => true
  | _ :: _, [] => false
  | c :: cs, d :: ds => c == d && leadsWith cs ds

/-- Does `needle` occur contiguously anywhere in the character list? -/
def occursIn (needle : List Char) : List Char → Bool
  | [] => leadsWith needle []
  | d :: ds => leadsWith needle (d :: ds) || occursIn needle ds

/-- JavaScript's `String.prototype.includes`: substring containment. -/
def strIncludes (hay needle : String) : Bool :=
  occursIn needle.data hay.data

/-- Function `getProgressValue` (page.tsx lines 167–174), over the nullable
`jobStatus` state it reads. -/
def getProgressValue (jobStatus : Option JobStatus) : Nat :=
  match jobStatus with
  | none => 0
  | some js =>
    if js.status = "completed" then 100
    else if js.status = "pending" then 5
    else if strIncludes js.status "processing" then 30
    else if strIncludes js.status "scraping_completed" then 70
    else 50

/-- Position of each core state along the orchestrator's forward order
(spec §4.1). -/
def stateIndex : JobState → Nat
  | .pending => 0
  | .scraping => 1
  | .scrapingCompleted => 2
  | .contacting => 3
  | .completed => 4
  | .failed => 5

/-- The status string naming each core state (spec §4.1 state names). -/
def stateStatusString : JobState → String
  | .pending => "pending"
  | .scraping => "scraping"
  | .scrapingCompleted => "scraping_completed"
  | .contacting => "contacting"
  | .completed => "completed"
  | .failed => "failed"

/-- A `JobStatus` value carrying the given status string (the other fields
are irrelevant to the page's progress and polling logic). -/
def mkJS (status : String) : JobStatus :=
  ⟨0, "", "", "", status, "", 0, 0, ⟨0, 0, 0⟩, false, false⟩

/-- C8 fails as stated: `contacting` follows `scraping_completed` along the
orchestrator's order, yet the progress value drops from 70 to 50. -/
theorem progress_not_monotone :
    stateIndex .scrapingCompleted < stateIndex .contacting ∧
    getProgressValue (some (mkJS (stateStatusString .scrapingCompleted))) =
      70 ∧
    getProgressValue (some (mkJS (stateStatusString .contacting))) = 50 := by
  decide

/-- C8 (amended): `getProgressValue` only returns values in
{0, 5, 30, 50, 70, 100} — null → 0, completed → 100, pending → 5, a status
containing "processing" → 30, then one containing "scraping_completed" →
70, any other status → 50 — and along the orchestrator's non-failed state
order the value is non-decreasing except at the step into `contacting`,
which maps to 50 below scraping_completed's 70. -/
theorem progress_value_range (s : Option JobStatus) :
    getProgressValue s ∈ [0, 5, 30, 50, 70, 100] ∧
    getProgressValue none = 0 ∧
    getProgressValue (some (mkJS "pending")) = 5 ∧
    getProgressValue (some (mkJS "scraping")) = 50 ∧
    getProgressValue (some (mkJS "scraping_completed")) = 70 ∧
    getProgressValue (some (mkJS "contacting")) = 50 ∧
    getProgressValue (some (mkJS "completed")) = 100 ∧
    (∀ a b : JobState, stateIndex a ≤ stateIndex b → stateIndex b ≤ 4 →
      ¬(a = .scrapingCompleted ∧ b = .contacting) →
      getProgressValue (some (mkJS (stateStatusString a))) ≤
        getProgressValue (some (mkJS (stateStatusString b)))) := by
  refine ⟨?_, by decide, by decide, by decide, by decide, by decide,
    by decide, by decide⟩
  cases s with
  | none => simp [getProgressValue]
  | some js =>
    simp only [getProgressValue]
    by_cases h1 : js.status = "completed"
    · simp [h1]
    · by_cases h2 : js.status = "pending"
      · simp [h1, h2]
      · by_cases h3 : strIncludes js.status "processing"
        · simp [h1, h2, h3]
        · by_cases h4 : strIncludes js.status "scraping_completed"
          · simp [h1, h2, h3, h4]
          · simp [h1, h2, h3, h4]

theorem progress_value_range_witness :
    getProgressValue none ∈ [0, 5, 30, 50, 70, 100] :=
  (progress_value_range none).1

/-! ## Frontend: status polling on the job detail page
(page.tsx lines 117–133) -/

/-- The interval callback's guard (page.tsx lines 122–127): fetch the
status again iff the `jobStatus` it reads is non-null and its status is
"pending" or contains "processing" or contains "scraping". -/
def pollGuard (jobStatus : Option JobStatus) : Bool :=
  match jobStatus with
  | none => false
  | some js =>
    js.status == "pending" || strIncludes js.status "processing" ||
      strIncludes js.status "scraping"

/-- The initial value of the `jobStatus` state
(`useState<JobStatus | null>(null)`, page.tsx line 62). -/
def initialJobStatus : Option JobStatus := none

/-- The effect's dependency array is `[resolvedParams.id]` (page.tsx line
133 — the comment there records that `jobStatus?.status` was removed from
it), so the `setInterval` callback registered at mount closes over the
mount-time value of `jobStatus`; every 5-second tick evaluates the guard
on that captured snapshot, not on the current state. -/
def intervalTickFetches (capturedAtMount : Option JobStatus) : Bool :=
  pollGuard capturedAtMount

/-- C7: the poll guard itself classifies a "pending" job as still needing
polling, but the interval callback evaluates the guard on the mount-time
snapshot of `jobStatus`, which is the initial null — so no 5-second tick
ever re-reads the status endpoint, whatever the job's live status is. -/
theorem polling_never_refetches :
    pollGuard (some (mkJS "pending")) = true ∧
    intervalTickFetches initialJobStatus = false := by
  decide

/-! ## Frontend API proxy routes (src/frontend/app/api) -/

/-- An incoming proxy request as the route handlers consume it: the
authorization header, if any, and whether the body parse the handler
performs (`request.json()` / `request.formData()`) succeeds. -/
structure ProxyRequest where
  authHeader : Option String
  bodyOk : Bool
deriving DecidableEq, Repr

/-- The backend call as the route sees it: a response with its ok flag,
HTTP status and optional error detail — or a thrown exception (network
failure, or an unparseable backend payload at `response.json()`). -/
structure BackendResponse where
  ok : Bool
  status : Nat
  detail : Option String
deriving DecidableEq, Repr

/-- A JSON route response: the HTTP status and the `detail` field of the
body (`none` for the success passthrough of the backend payload). -/
structure RouteResponse where
  status : Nat
  detail : Option String
deriving DecidableEq, Repr

/-- Handler for `POST /api/search` (app/api/search/route.ts): inside try/catch, parse
the JSON body, then check the authorization header, then forward to the
backend; any thrown error is caught and mapped to 500. The Bool records
whether the backend was contacted. -/
def searchPOST (req : ProxyRequest)
    (backend : Except Unit BackendResponse) : RouteResponse × Bool :=
  if req.bodyOk = false then (⟨500, some "Internal server error"⟩, false)
  else
    match req.authHeader with
    | none => (⟨401, some "Authorization header missing"⟩, false)
    | some _ =>
      match backend with
      | .error _ => (⟨500, some "Internal server error"⟩, true)
      | .ok r =>
        if r.ok then (⟨200, none⟩, true)
        else (⟨r.status, some (r.detail.getD "Search failed")⟩, true)

/-- Handler for `GET /api/export/jobs/[id]/status` (route.ts): check the authorization
header, then forward; thrown errors are caught and mapped to 500. -/
def statusGET (req : ProxyRequest)
    (backend : Except Unit BackendResponse) : RouteResponse × Bool :=
  match req.authHeader with
  | none => (⟨401, some "Authorization header missing"⟩, false)
  | some _ =>
    match backend with
    | .error _ => (⟨500, some "Internal server error"⟩, true)
    | .ok r =>
      if r.ok then (⟨200, none⟩, true)
      else (⟨r.status, some (r.detail.getD "Failed to fetch job status")⟩,
        true)

/-- Handler for `POST /api/import/csv` (route.ts): check the authorization header, then
parse the multipart body, then forward; thrown errors map to 500. -/
def csvImportPOST (req : ProxyRequest)
    (backend : Except Unit BackendResponse) : RouteResponse × Bool :=
  match req.authHeader with
  | none => (⟨401, some "Authorization header missing"⟩, false)
  | some _ =>
    if req.bodyOk = false then (⟨500, some "Internal server error"⟩, false)
    else
      match backend with
      | .error _ => (⟨500, some "Internal server error"⟩, true)
      | .ok r =>
        if r.ok then (⟨200, none⟩, true)
        else (⟨r.status, some (r.detail.getD "CSV import failed")⟩, true)

/-- Handler for `GET /api/export/json/[id]` (route.ts): check the authorization header,
read the query parameter, then forward; thrown errors map to 500. -/
def jsonExportGET (req : ProxyRequest)
    (backend : Except Unit BackendResponse) : RouteResponse × Bool :=
  match req.authHeader with
  | none => (⟨401, some "Authorization header missing"⟩, false)
  | some _ =>
    match backend with
    | .error _ => (⟨500, some "Internal server error"⟩, true)
    | .ok r =>
      if r.ok then (⟨200, none⟩, true)
      else (⟨r.status, some (r.detail.getD "Failed to fetch job data")⟩,
        true)

/-- C9 fails as stated: the search route parses the JSON body before the
authorization check, so a request with no authorization header whose body
is not valid JSON is answered 500 "Internal server error", not 401. -/
theorem search_missing_auth_not_401 :
    searchPOST ⟨none, false⟩ (.ok ⟨true, 200, none⟩) =
      (⟨500, some "Internal server error"⟩, false) ∧
    (500 : Nat) ≠ 401 := by
  decide

/-- C9 (amended): the status, CSV-import and JSON-export handlers answer a
request with no authorization header 401 `Authorization header missing`
without contacting the backend; the search handler does so provided its
JSON body parses (the body parse precedes the auth check, and its failure
yields 500); and all four handlers catch exceptions — a body-parse failure
or a thrown backend call is answered 500 `Internal server error`, never
propagated. -/
theorem proxy_auth_and_catch (req : ProxyRequest)
    (backend : Except Unit BackendResponse) :
    (req.authHeader = none →
      statusGET req backend =
        (⟨401, some "Authorization header missing"⟩, false) ∧
      csvImportPOST req backend =
        (⟨401, some "Authorization header missing"⟩, false) ∧
      jsonExportGET req backend =
        (⟨401, some "Authorization header missing"⟩, false)) ∧
    (req.authHeader = none → req.bodyOk = true →
      searchPOST req backend =
        (⟨401, some "Authorization header missing"⟩, false)) ∧
    (req.bodyOk = false →
      (searchPOST req backend).1.status = 500 ∨
        (searchPOST req backend).1.status = 401) ∧
    (∀ a, req.authHeader = some a → req.bodyOk = false →
      searchPOST req backend =
        (⟨500, some "Internal server error"⟩, false) ∧
      csvImportPOST req backend =
        (⟨500, some "Internal server error"⟩, false)) ∧
    (∀ a, req.authHeader = some a → req.bodyOk = true →
      backend = .error () →
      searchPOST req backend = (⟨500, some "Internal server error"⟩, true) ∧
      statusGET req backend = (⟨500, some "Internal server error"⟩, true) ∧
      csvImportPOST req backend =
        (⟨500, some "Internal server error"⟩, true) ∧
      jsonExportGET req backend =
        (⟨500, some "Internal server error"⟩, true)) := by
  obtain ⟨auth, bodyOk⟩ := req
  cases auth <;> cases bodyOk <;> cases backend <;>
    simp [searchPOST, statusGET, csvImportPOST, jsonExportGET]

theorem proxy_auth_and_catch_witness :
    statusGET ⟨none, true⟩ (.ok ⟨true, 200, none⟩) =
      (⟨401, some "Authorization header missing"⟩, false) :=
  ((proxy_auth_and_catch ⟨none, true⟩ (.ok ⟨true, 200, none⟩)).1 rfl).1

/-! ## Frontend file-export proxy routes (src/unnamed/part_002) -/

/-- A file-download route response: a JSON error (status and detail), or a
file passthrough with its content type, content disposition, and bytes. -/
inductive FileRouteResponse
  | json (status : Nat) (detail : String)
  | file (contentType : String) (disposition : String) (blob : List Nat)
deriving DecidableEq, Repr

/-- The backend file endpoint's reply as the route consumes it. -/
structure FileBackend where
  ok : Bool
  status : Nat
  detail : Option String
  blob : List Nat
deriving DecidableEq, Repr

/-- Handler `GET` of the CSV export proxy (src/unnamed/part_002, first route):
auth check, forward, error passthrough, else blob passthrough with CSV
headers; thrown errors map to 500. -/
def csvExportGET (id : String) (req : ProxyRequest)
    (backend : Except Unit FileBackend) : FileRouteResponse :=
  match req.authHeader with
  | none => .json 401 "Authorization header missing"
  | some _ =>
    match backend with
    | .error _ => .json 500 "Internal server error"
    | .ok r =>
      if r.ok = false then
        .json r.status (r.detail.getD "Failed to export CSV")
      else
        .file "text/csv"
          ("attachment; filename=\"export_" ++ id ++ ".csv\"") r.blob

/-- Handler `POST` of the CSV export proxy (src/unnamed/part_002): defined as a
call to `GET` with the same request and params. -/
def csvExportPOST (id : String) (req : ProxyRequest)
    (backend : Except Unit FileBackend) : FileRouteResponse :=
  csvExportGET id req backend

/-- Handler `GET` of the Excel export proxy (src/unnamed/part_002, second route). -/
def excelExportGET (id : String) (req : ProxyRequest)
    (backend : Except Unit FileBackend) : FileRouteResponse :=
  match req.authHeader with
  | none => .json 401 "Authorization header missing"
  | some _ =>
    match backend with
    | .error _ => .json 500 "Internal server error"
    | .ok r =>
      if r.ok = false then
        .json r.status (r.detail.getD "Failed to export Excel")
      else
        .file
          "application/vnd.openxmlformats-officedocument.spreadsheetml.sheet"
          ("attachment; filename=\"export_" ++ id ++ ".xlsx\"") r.blob

/-- Handler `POST` of the Excel export proxy (src/unnamed/part_002): defined as a
call to `GET` with the same request and params. -/
def excelExportPOST (id : String) (req : ProxyRequest)
    (backend : Except Unit FileBackend) : FileRouteResponse :=
  excelExportGET id req backend

/-- C10: for the CSV and Excel export proxies, POST returns exactly the
same response as GET on every request, parameter set, and backend reply,
since each POST is defined as a call to the corresponding GET. -/
theorem export_post_eq_get (id : String) (req : ProxyRequest)
    (backend : Except Unit FileBackend) :
    csvExportPOST id req backend = csvExportGET id req backend ∧
    excelExportPOST id req backend = excelExportGET id req backend :=
  ⟨rfl, rfl⟩

end Scrappy
